import Mathlib

/-!
Shallow embedding of the four command-line utilities of the repository
(myWc, myRotate, myXargs, myFind) together with proofs of the spec claims.
Each Go function is translated into a Lean definition; OS calls
(stat, EvalSymlinks) become explicit oracle parameters, and side effects
(stdout, stderr, files on disk) become explicit values returned by the
model.  Strings are Lean `String`s; a scanned text line is a `List Char`
(one element per Unicode code point, as Go's range-over-string sees it).
-/

namespace GoClUtils

/-! ## myXargs (src/myXargs/myXargs.go) -/

/-- Outcome of running myXargs's `main`: either the process panicked before
executing anything, or it invoked `exec.Command name argv`. -/
inductive XargsOutcome where
  | panicked (msg : String) : XargsOutcome
  | exec (name : String) (argv : List String) : XargsOutcome
deriving DecidableEq, Repr

/-- The slice `arr` built by `main` of myXargs: it starts as `os.Args[1:]`
and the scanner loop appends one element per line read from stdin
(`arr = append(arr, scanner.Text())`). -/
def myXargsArr (args stdinLines : List String) : List String :=
  stdinLines.foldl (fun a l => a ++ [l]) args

/-- Model of `main` of myXargs: build `arr`, then run
`exec.Command(arr[0], arr[1:]...)`.  Indexing `arr[0]` on an empty slice
panics with an index-out-of-range runtime error, before any command runs. -/
def myXargsMain (args stdinLines : List String) : XargsOutcome :=
  match myXargsArr args stdinLines with
  | [] => XargsOutcome.panicked "runtime error: index out of range"
  | c :: rest => XargsOutcome.exec c rest

/-! ## myWc (src/myWc/myWc.go) -/

/-- Go's `unicode.IsSpace`: the code points with the Unicode White_Space
property (used by `strings.Fields` to delimit words). -/
def goIsSpace (c : Char) : Bool :=
  c = ' ' || c = '\t' || c = '\n' || c.toNat = 11 || c.toNat = 12 || c = '\r' ||
  c.toNat = 0x85 || c.toNat = 0xA0 || c.toNat = 0x1680 ||
  (0x2000 ≤ c.toNat && c.toNat ≤ 0x200A) ||
  c.toNat = 0x2028 || c.toNat = 0x2029 || c.toNat = 0x202F ||
  c.toNat = 0x205F || c.toNat = 0x3000

/-- Helper for `goFields`: `acc` holds the (reversed) characters of the
field currently being scanned. -/
def goFieldsAux : List Char → List Char → List (List Char)
  | [], [] => []
  | [], acc => [acc.reverse]
  | c :: rest, acc =>
    if goIsSpace c then
      match acc with
      | [] => goFieldsAux rest []
      | _ => acc.reverse :: goFieldsAux rest []
    else goFieldsAux rest (c :: acc)

/-- Model of Go's `strings.Fields`: split a line around maximal runs of
white space, returning the list of non-empty fields. -/
def goFields (line : List Char) : List (List Char) :=
  goFieldsAux line []

/-- The counting loop of `processFile` in myWc (lines 99-114): iterate over
the scanned lines accumulating `res` according to `mode`
(3 = lines, 2 = words, 1 = characters).  `utf8.RuneCountInString` of a
line is the number of its code points, i.e. `line.length` here. -/
def processCount (mode : Int) (ls : List (List Char)) : Nat :=
  ls.foldl
    (fun res line =>
      if mode = 3 then res + 1
      else if mode = 2 then res + (goFields line).length
      else if mode = 1 then res + (line.length + 1)
      else res)
    0

/-- Model of `validateFlags` of myWc (lines 125-148): count the flags that
are set, record the mode in program order (l sets 3, w sets 2, m sets 1),
error when more than one flag is set, default to mode 2 (words) when none
is set. -/
def validateFlags (lMode wMode mMode : Bool) : Except String Int :=
  let cm1 : Int × Int := if lMode then (1, 3) else (0, 0)
  let cm2 : Int × Int := if wMode then (cm1.1 + 1, 2) else cm1
  let cm3 : Int × Int := if mMode then (cm2.1 + 1, 1) else cm2
  if cm3.1 > 1 then Except.error "Only one of -l, -w, -m can be specified"
  else if cm3.1 = 0 then Except.ok 2
  else Except.ok cm3.2

/-- Number of the three mode flags that are set. -/
def wcFlagCount (lMode wMode mMode : Bool) : Nat :=
  (if lMode then 1 else 0) + (if wMode then 1 else 0) + (if mMode then 1 else 0)

/-! ## myRotate (src/myRotate/myRotate.go) -/

/-- Model of Go's `strings.HasSuffix`, computed on the code-point lists of
the strings. -/
def goHasSuffix (s suffix : String) : Bool :=
  List.isSuffixOf suffix.data s.data

/-- Model of Go's `strings.HasPrefix`, computed on the code-point lists of
the strings. -/
def goStartsWith (s pre : String) : Bool :=
  List.isPrefixOf pre.data s.data

/-- Drop the first `n` code points of a string (Go's `s[n:]` for an ASCII
head of length `n`). -/
def goDrop (s : String) (n : Nat) : String :=
  String.mk (s.data.drop n)

/-- Drop the last `n` code points of a string. -/
def goDropRight (s : String) (n : Nat) : String :=
  String.mk (s.data.take (s.data.length - n))

/-- Model of Go's `strings.CutSuffix s suffix`: the pair of `s` with the
suffix removed and a flag telling whether the suffix was present. -/
def cutSuffix (s suffix : String) : String × Bool :=
  if goHasSuffix s suffix then (goDropRight s suffix.data.length, true)
  else (s, false)

/-- Model of `getArchiveName` (lines 97-106): for a file named `fname` with
Unix modification time `stamp`, cut the `.log` suffix; if absent report the
wrong-format diagnostic (`none` here), otherwise produce
`basename_stamp.tar.gz` (the `fmt.Sprintf` on line 104). -/
def getArchiveName (fname : String) (stamp : Int) : Option String :=
  let nf := cutSuffix fname ".log"
  if !nf.2 then none
  else some (nf.1 ++ "_" ++ toString stamp ++ ".tar.gz")

/-- The file-list selection of `main` (lines 44-49): when the parsed `-a`
value is empty take `os.Args[1:]`, otherwise take `os.Args[3:]`.  `argv`
is the full argument vector including the program name. -/
def rotateFiles (dest : String) (argv : List String) : List String :=
  if dest = "" then argv.drop 1 else argv.drop 3

/-- Result of `os.Stat` in the model: `none` is an error return, otherwise
the `IsDir` bit of the resulting `FileInfo`. -/
structure StatInfo where
  isDir : Bool
deriving DecidableEq, Repr

/-- Outcome of the startup part of myRotate's `main` (lines 32-54), before
any goroutine is launched. -/
inductive RotStartup where
  | statPanic : RotStartup
  | notADir : RotStartup
  | noFilesPanic : RotStartup
  | proceed (files : List String) : RotStartup
deriving DecidableEq, Repr

/-- Model of the startup of myRotate's `main`: `os.Stat(*dest)` is checked
by `CheckErr` (panic on error); a non-directory destination returns after a
diagnostic; then the file list is selected and its emptiness checked. -/
def myRotateStartup (stat : String → Option StatInfo) (argv : List String)
    (dest : String) : RotStartup :=
  match stat dest with
  | none => RotStartup.statPanic
  | some info =>
    if !info.isDir then RotStartup.notADir
    else
      let files := rotateFiles dest argv
      if files.length < 1 then RotStartup.noFilesPanic
      else RotStartup.proceed files

/-- A stat oracle for a Linux filesystem on which exactly the directories
in `dirs` exist: `os.Stat ""` always fails (the empty string names no
file), and any path outside `dirs` fails too. -/
def linuxStat (dirs : List String) : String → Option StatInfo :=
  fun s => if s = "" then none else if s ∈ dirs then some ⟨true⟩ else none

/-- Model of Go flag parsing for myRotate's single `-a` string flag, in the
two forms the `flag` package accepts: the two-token `-a dir` and the
single-token `-a=dir`.  Returns the flag value (default `""`) and the
positional arguments `flag.Args()`. -/
def parseDest (args : List String) : String × List String :=
  match args with
  | [] => ("", [])
  | a :: rest =>
    if a = "-a" then
      match rest with
      | v :: rest2 => (v, rest2)
      | [] => ("", [])
    else if goStartsWith a "-a=" then (goDrop a 3, rest)
    else ("", a :: rest)

/-- The per-step results of one archiving goroutine's OS calls:
`statResult` is the name and Unix mtime from `os.Stat path` (`none` on
error), `createOk` tells whether `os.Create` succeeded, and `fillErr` is
the error returned by `fillArchive` (`none` on success). -/
structure RotTaskEnv where
  statResult : Option (String × Int)
  createOk : Bool
  fillErr : Option String
deriving DecidableEq, Repr

/-- Model of one archiving goroutine (lines 60-91) acting on the working
directory, modelled as the list `disk` of file names present there.
`os.Create` puts the archive on disk; on a `fillArchive` error the error is
printed and `removeArchive` runs `rm` on the just-created archive; on
success with a non-empty destination `moveArchive` runs `mv`, taking the
archive out of the working directory.  Returns the final working-directory
contents and the stderr lines. -/
def rotateTask (dest : String) (env : RotTaskEnv) (disk : List String) :
    List String × List String :=
  match env.statResult with
  | none => (disk, ["stat error"])
  | some (fname, stamp) =>
    match getArchiveName fname stamp with
    | none => (disk, ["Wrong file format, only .log accepted"])
    | some aname =>
      if !env.createOk then (disk, ["create error"])
      else
        let disk1 := aname :: disk
        match env.fillErr with
        | some msg => (disk1.erase aname, [msg])
        | none => if dest = "" then (disk1, []) else (disk1.erase aname, [])

/-! ## myFind (src/myFind/myFind.go) -/

/-- The parts of `os.FileInfo` that `main`'s walk callback and
`printEntity` read: `name` is `info.Name()` (the base name of the walked
path), `mode` the full `FileMode` bits, and the three classification bits
correspond to `IsDir`, `Mode().IsRegular` and `Mode()&fs.ModeSymlink`. -/
structure FInfo where
  name : String
  mode : Nat
  isDir : Bool
  isRegular : Bool
  isSymlink : Bool
deriving DecidableEq, Repr

/-- Model of `processExt` (lines 125-131): print the path once for every
configured extension that is a suffix of it. -/
def processExt (path : String) (exts : List String) : List String :=
  exts.foldr (fun ext acc => if goHasSuffix path ext then path :: acc else acc) []

/-- Model of `printEntity` (lines 106-122): classify the entry and print it
when the matching mode flag is on.  For a symbolic link the code calls
`filepath.EvalSymlinks(info.Name())` — note: on the base name, not on the
walked path — printing the resolved target on success and `[broken]` on
error.  `evalSymlinks` is the resolution oracle (`none` = error). -/
def printEntity (dirMode fMode slMode : Bool) (exts : List String)
    (evalSymlinks : String → Option String) (path : String) (info : FInfo) :
    List String :=
  if info.isDir && dirMode then [path]
  else if info.isRegular && fMode then
    if exts.length > 0 then processExt path exts else [path]
  else if info.isSymlink && slMode then
    match evalSymlinks info.name with
    | some origFile => [path ++ " -> " ++ origFile]
    | none => [path ++ " -> " ++ "[broken]"]
  else []

/-- Model of the walk callback in myFind's `main` (lines 66-74): when
`info.Mode()&fs.ModePerm&0400` is non-zero the entry goes through
`printEntity` to stdout, otherwise the permission-denied diagnostic goes
to stderr.  Returns the pair (stdout lines, stderr lines) produced for
this entry. -/
def walkVisit (dirMode fMode slMode : Bool) (exts : List String)
    (evalSymlinks : String → Option String) (path : String) (info : FInfo) :
    List String × List String :=
  if info.mode &&& 0o777 &&& 0o400 ≠ 0 then
    (printEntity dirMode fMode slMode exts evalSymlinks path info, [])
  else
    ([], [path ++ ": Permission denied"])

/-- A resolution oracle for the C2 scenario: the symlink at walk path
`d/link` resolves (its target `d/x.txt` exists), but nothing named `link`
exists relative to the process working directory. -/
def symlinkOracle : String → Option String :=
  fun s => if s = "d/link" then some "d/x.txt" else none

/-! ## Helper lemmas -/

/-- A left fold that adds `f` of each element to the accumulator computes
the initial value plus the sum of `f` over the list. -/
theorem foldl_count_add (f : List Char → Nat) (ls : List (List Char)) :
    ∀ n : Nat, ls.foldl (fun r l => r + f l) n = n + (ls.map f).sum := by
  induction ls with
  | nil => intro n; simp
  | cons h t ih => intro n; simp [List.foldl_cons, ih]; omega

/-- The append loop of myXargs builds exactly the concatenation of the base
arguments with the stdin lines. -/
theorem myXargsArr_eq (args stdinLines : List String) :
    myXargsArr args stdinLines = args ++ stdinLines := by
  unfold myXargsArr
  induction stdinLines generalizing args with
  | nil => simp
  | cons h t ih => simp [List.foldl_cons, ih]

/-! ## Claim theorems -/

/-- Claim C1 (code bug): contrary to the claim and to the program's own doc
comment, an invocation of the archiver without the `-a` flag terminates
fatally at startup: the flag defaults to `""`, `os.Stat("")` always fails
on Linux, and `CheckErr` panics.  Here the flag-parse of argument list
`["app.log"]` yields destination `""`, and for every set of existing
directories the startup panics on the stat. -/
theorem myRotate_no_dest_flag_panics :
    parseDest ["app.log"] = ("", ["app.log"]) ∧
    ∀ dirs : List String,
      myRotateStartup (linuxStat dirs) ["myRotate", "app.log"] ""
        = RotStartup.statPanic := by
  refine ⟨by decide, ?_⟩
  intro dirs
  simp [myRotateStartup, linuxStat]

/-- Claim C2 (code bug): `printEntity` passes `info.Name()` — the base name
of the walked path — to `filepath.EvalSymlinks`, not the path itself.  For
the symlink walked at `d/link` whose resolution from the walk path succeeds
(target `d/x.txt`), the lister nevertheless prints `d/link -> [broken]`,
because nothing named `link` resolves relative to the working directory. -/
theorem myFind_symlink_resolved_by_basename :
    symlinkOracle "d/link" = some "d/x.txt" ∧
    walkVisit true true true [] symlinkOracle "d/link"
      ⟨"link", 0o777, false, false, true⟩
      = (["d/link -> [broken]"], []) := by
  exact ⟨by decide, by decide⟩

/-- Claim C3: the counting loop of `processFile` reports, in line mode (3),
the number of lines; in word mode (2), the sum over lines of the number of
whitespace-delimited tokens; in character mode (1), the sum over lines of
the number of Unicode code points in the line plus one per line. -/
theorem myWc_processFile_counts (ls : List (List Char)) :
    processCount 3 ls = ls.length ∧
    processCount 2 ls = (ls.map (fun l => (goFields l).length)).sum ∧
    processCount 1 ls = (ls.map (fun l => l.length + 1)).sum := by
  refine ⟨?_, ?_, ?_⟩
  · have e : processCount 3 ls
        = ls.foldl (fun r l => r + (fun (_ : List Char) => 1) l) 0 := by
      unfold processCount; norm_num
    rw [e, foldl_count_add]
    simp
  · have e : processCount 2 ls
        = ls.foldl (fun r l => r + (fun l => (goFields l).length) l) 0 := by
      unfold processCount; norm_num
    rw [e, foldl_count_add]
    simp
  · have e : processCount 1 ls
        = ls.foldl (fun r l => r + (fun (l : List Char) => l.length + 1) l) 0 := by
      unfold processCount; norm_num
    rw [e, foldl_count_add]
    simp

/-- Claim C4: when `fillArchive` fails after the archive file was created,
the goroutine reports the error and `removeArchive` deletes the
just-created archive: provided the archive name was not already present in
the working directory, it is absent from the final working directory, and
the error message appears on stderr. -/
theorem myRotate_fill_failure_removes_archive (dest : String) (env : RotTaskEnv)
    (disk : List String) (fname : String) (stamp : Int) (aname msg : String)
    (hstat : env.statResult = some (fname, stamp))
    (hname : getArchiveName fname stamp = some aname)
    (hcreate : env.createOk = true)
    (hfill : env.fillErr = some msg)
    (hfresh : aname ∉ disk) :
    aname ∉ (rotateTask dest env disk).1 ∧ msg ∈ (rotateTask dest env disk).2 := by
  simp [rotateTask, hstat, hname, hcreate, hfill, List.erase_cons_head, hfresh]

/-- Witness for C4 at a concrete environment: statting `app.log` with mtime
5 succeeds, the archive `app_5.tar.gz` is created, filling fails with
message `disk full`; the final working directory does not contain the
archive and stderr carries the message. -/
theorem myRotate_fill_failure_removes_archive_witness :
    "app_5.tar.gz" ∉
        (rotateTask "" ⟨some ("app.log", 5), true, some "disk full"⟩ []).1 ∧
    "disk full" ∈
        (rotateTask "" ⟨some ("app.log", 5), true, some "disk full"⟩ []).2 :=
  myRotate_fill_failure_removes_archive "" ⟨some ("app.log", 5), true, some "disk full"⟩
    [] "app.log" 5 "app_5.tar.gz" "disk full" rfl (by decide) rfl rfl (by simp)

/-- Claim C5: for every file name ending in `.log` with Unix modification
time `t`, `getArchiveName` produces exactly the basename (suffix removed)
followed by `_`, the timestamp and `.tar.gz`. -/
theorem myRotate_archive_name (fname : String) (t : Int)
    (h : goHasSuffix fname ".log" = true) :
    getArchiveName fname t
      = some (goDropRight fname 4 ++ "_" ++ toString t ++ ".tar.gz") := by
  simp [getArchiveName, cutSuffix, h]

/-- Witness for C5: the file `app.log` with mtime 1712345678 is archived as
`app_1712345678.tar.gz`. -/
theorem myRotate_archive_name_witness :
    goHasSuffix "app.log" ".log" = true ∧
    getArchiveName "app.log" 1712345678 = some "app_1712345678.tar.gz" :=
  ⟨by decide, myRotate_archive_name "app.log" 1712345678 (by decide)⟩

/-- Claim C6: for base arguments `A` and stdin lines `L` with `A ++ L`
non-empty, myXargs executes the first element of `A ++ L` as the command
with the remaining elements as its argument vector. -/
theorem myXargs_command (A L : List String) (h : A ++ L ≠ []) :
    myXargsMain A L = XargsOutcome.exec ((A ++ L).headD "") ((A ++ L).tail) := by
  unfold myXargsMain
  rw [myXargsArr_eq]
  cases hAL : A ++ L with
  | nil => exact absurd hAL h
  | cons c rest => simp

/-- Witness for C6: base args `["echo", "a"]` with stdin lines
`["b", "c"]` execute `echo` with argument vector `["a", "b", "c"]`. -/
theorem myXargs_command_witness :
    myXargsMain ["echo", "a"] ["b", "c"]
      = XargsOutcome.exec "echo" ["a", "b", "c"] :=
  myXargs_command ["echo", "a"] ["b", "c"] (by simp)

/-- Claim C7: `validateFlags` errors when more than one of `-l`, `-w`, `-m`
is set; with exactly one set it returns the corresponding mode
(3 = lines for `-l`, 2 = words for `-w`, 1 = characters for `-m`, the mode
numbers used by `processCount`); with none set it defaults to 2 (words). -/
theorem myWc_validateFlags_modes (l w m : Bool) :
    (1 < wcFlagCount l w m →
      validateFlags l w m
        = Except.error "Only one of -l, -w, -m can be specified") ∧
    (wcFlagCount l w m = 1 →
      validateFlags l w m = Except.ok (if l then 3 else if w then 2 else 1)) ∧
    (wcFlagCount l w m = 0 → validateFlags l w m = Except.ok 2) := by
  rcases l <;> rcases w <;> rcases m <;>
    simp [validateFlags, wcFlagCount]

/-- Witness for C7: two flags error out, `-m` alone selects mode 1, no
flags default to mode 2. -/
theorem myWc_validateFlags_modes_witness :
    validateFlags true true false
      = Except.error "Only one of -l, -w, -m can be specified" ∧
    validateFlags false false true = Except.ok 1 ∧
    validateFlags false false false = Except.ok 2 :=
  ⟨(myWc_validateFlags_modes true true false).1 (by decide),
   (myWc_validateFlags_modes false false true).2.1 (by decide),
   (myWc_validateFlags_modes false false false).2.2 (by decide)⟩

/-- Claim C8: for every entry whose file-mode permission bits fail the
code's read-permission test (`Mode()&fs.ModePerm&0400 == 0`), the walk
callback emits `<path>: Permission denied` on stderr and prints nothing to
stdout; the test is a pure function of the mode bits. -/
theorem myFind_permission_denied (dm fm sm : Bool) (exts : List String)
    (res : String → Option String) (path : String) (info : FInfo)
    (h : info.mode &&& 0o777 &&& 0o400 = 0) :
    walkVisit dm fm sm exts res path info
      = ([], [path ++ ": Permission denied"]) := by
  simp [walkVisit, h]

/-- Witness for C8: a regular file with permissions 0o200 (no read bit) at
path `secret` yields only the stderr diagnostic. -/
theorem myFind_permission_denied_witness :
    walkVisit true true true [] (fun _ => none) "secret"
      ⟨"secret", 0o200, false, true, false⟩
      = ([], ["secret: Permission denied"]) :=
  myFind_permission_denied true true true [] (fun _ => none) "secret"
    ⟨"secret", 0o200, false, true, false⟩ (by decide)

/-- Claim C9: whenever the parsed destination is non-empty the archiver
processes exactly `os.Args[3:]`; consequently for the single-token
invocation `myRotate -a=dir f1 f2` (where the flag package still parses
destination `dir` and positionals `f1 f2`) the startup proceeds with only
`["f2"]`, silently dropping `f1`. -/
theorem myRotate_dest_files_drop3 :
    (∀ (dest : String) (argv : List String), dest ≠ "" →
      rotateFiles dest argv = argv.drop 3) ∧
    parseDest ["-a=dir", "f1", "f2"] = ("dir", ["f1", "f2"]) ∧
    myRotateStartup (linuxStat ["dir"]) ["myRotate", "-a=dir", "f1", "f2"] "dir"
      = RotStartup.proceed ["f2"] ∧
    "f1" ∉ rotateFiles "dir" ["myRotate", "-a=dir", "f1", "f2"] := by
  refine ⟨?_, by decide, by decide, by decide⟩
  intro dest argv h
  simp [rotateFiles, h]

/-- Witness for C9: at destination `dir` the selected files are the drop-3
suffix of the argument vector. -/
theorem myRotate_dest_files_drop3_witness :
    rotateFiles "dir" ["myRotate", "-a=dir", "f1", "f2"]
      = (["myRotate", "-a=dir", "f1", "f2"] : List String).drop 3 :=
  myRotate_dest_files_drop3.1 "dir" ["myRotate", "-a=dir", "f1", "f2"] (by simp)

/-- Claim C10: with no command-line arguments after the program name and no
stdin lines, the combined slice is empty and myXargs panics with an
index-out-of-range runtime error at `arr[0]`, executing no command. -/
theorem myXargs_empty_input_panics :
    myXargsArr [] [] = [] ∧
    myXargsMain [] []
      = XargsOutcome.panicked "runtime error: index out of range" :=
  ⟨rfl, rfl⟩

end GoClUtils
